import Mathlib

/-!
Verification of the RAPydity accommodation engine (`src/RAPydity.py`).

The Python source is shallowly embedded below: dataclasses become
structures, dict/loop code becomes association lists and structural
recursion, file/network I/O is abstracted into explicit function
parameters (a `resolve` oracle for Canvas lookups, a `fetch` oracle for
HTTP requests), and CPython machine behaviour is rendered with `Nat`,
`Int` and `Rat` (the float expression `int(x/60 + 0.5)` is embedded as
exact rational arithmetic with `Int.floor`).  ASCII character classes
stand in for the `re` module's Unicode classes.
-/

set_option autoImplicit false

namespace RAPydity

/-- Embeds the `Student` dataclass (RAPydity.py lines 135-141). -/
structure Student where
  name : String
  surname : String
  student_number : String
  extra_time_per_hour : Nat
  canvas_id : Option String
deriving DecidableEq, Repr

/-- One row of the RAP CSV, with the three columns read by
`extract_students_from_rap_csv` (lines 301-303). -/
structure RapRow where
  u_student_id : String
  u_exam_time : String
  u_requested_for1 : String
deriving DecidableEq, Repr

/-- Python `s.strip()`: drop leading and trailing whitespace. -/
def pyStrip (s : String) : String :=
  String.mk (((s.data.dropWhile Char.isWhitespace).reverse.dropWhile
    Char.isWhitespace).reverse)

/-- Python `s.lower()` (ASCII case mapping). -/
def pyLower (s : String) : String :=
  String.mk (s.data.map Char.toLower)

/-- Python `s.lstrip('Cc')`: drop every leading `'C'` or `'c'` (line 306). -/
def lstripCc (s : String) : String :=
  String.mk (s.data.dropWhile (fun c => c == 'C' || c == 'c'))

/-- Decimal value of a digit run, as produced by Python `int` on a digit
string. -/
def digitsToNat (ds : List Char) : Nat :=
  ds.foldl (fun n c => 10 * n + (c.toNat - 48)) 0

/-- Python `re.search(r'(\d+)', s)`: the first maximal run of digits in
`s`, as a number (line 315). -/
def firstIntLiteral (s : String) : Option Nat :=
  let run := (s.data.dropWhile (fun c => !c.isDigit)).takeWhile Char.isDigit
  if run.isEmpty then none else some (digitsToNat run)

/-- Worker for `pySplit`: accumulates the current word in reverse. -/
def pySplitAux : List Char → List Char → List String
  | [], acc => if acc.isEmpty then [] else [String.mk acc.reverse]
  | c :: rest, acc =>
    if c.isWhitespace then
      if acc.isEmpty then pySplitAux rest []
      else String.mk acc.reverse :: pySplitAux rest []
    else pySplitAux rest (c :: acc)

/-- Python `s.split()`: split on whitespace runs, discarding empty pieces
(line 325). -/
def pySplit (s : String) : List String :=
  pySplitAux s.data []

/-- The `no_time_phrases` sentinel set (line 295). -/
def noTimePhrases : List String :=
  ["no additional time required", "no additional time required.", ""]

/-- The loop body of `extract_students_from_rap_csv` (lines 300-334):
either a `Student` for this CSV row, or `none` when the row is skipped. -/
def processRapRow (row : RapRow) : Option Student :=
  let raw_id := pyStrip row.u_student_id
  let raw_time := pyStrip row.u_exam_time
  let raw_name := pyStrip row.u_requested_for1
  let student_number := lstripCc raw_id
  if student_number.data.isEmpty || !(student_number.data.all Char.isDigit) then
    none
  else if noTimePhrases.contains (pyLower raw_time) then
    none
  else
    match firstIntLiteral raw_time with
    | none => none
    | some extra_time =>
      let parts := pySplit raw_name
      let name := parts.headD ""
      let surname := String.intercalate " " parts.tail
      some { name := name, surname := surname, student_number := student_number,
             extra_time_per_hour := extra_time, canvas_id := none }

/-- `d[k] = v` on a Python dict kept as an insertion-ordered association
list: replace in place if the key exists, else append. -/
def dictInsert (d : List (String × Student)) (k : String) (v : Student) :
    List (String × Student) :=
  if d.any (fun p => p.1 == k) then
    d.map (fun p => if p.1 == k then (k, v) else p)
  else
    d ++ [(k, v)]

/-- `RAPReader.extract_students_from_rap_csv` (lines 288-340) on an
already-parsed list of CSV rows: the dict of students keyed by student
number. -/
def extract_students_from_rap_csv (rows : List RapRow) : List (String × Student) :=
  rows.foldl
    (fun d row =>
      match processRapRow row with
      | some s => dictInsert d s.student_number s
      | none => d)
    []

/-- Modelled from the spec: claim C4 reads the id column as reduced "after
stripping any leading single-letter prefix", i.e. removing at most one
leading letter.  Stated here to compare with the code's `lstripCc`. -/
def stripOneLeadingLetter (s : String) : String :=
  match s.data with
  | [] => s
  | c :: rest => if c.isAlpha then String.mk rest else s

/-- Key membership in the insertion-ordered dict. -/
def containsKey (d : List (String × Student)) (k : String) : Bool :=
  d.any (fun p => p.1 == k)

/-- Dict lookup: value at the first matching key. -/
def lookupKey (d : List (String × Student)) (k : String) : Option Student :=
  (d.find? (fun p => p.1 == k)).map Prod.snd

/-- The merge loop of `update_csv_from_raps` in CSV mode (lines 415-427):
walks the extracted records, inserting those whose student number is not
yet a key and which the Canvas `resolve` oracle
(`find_student_canvas_id`) maps to an id; returns the dict and the
`new_count`. -/
def mergeLoop (resolve : String → Option String) :
    List (String × Student) → List (String × Student) → Nat →
    List (String × Student) × Nat
  | [], acc, count => (acc, count)
  | (sn, st) :: rest, acc, count =>
    if containsKey acc sn then
      mergeLoop resolve rest acc count
    else
      match resolve sn with
      | some cid =>
        mergeLoop resolve rest (acc ++ [(sn, { st with canvas_id := some cid })])
          (count + 1)
      | none => mergeLoop resolve rest acc count

/-- `RAPReader.update_csv_from_raps` (lines 400-429, CSV branch), reduced
to its pure merge: existing roster + extracted records + Canvas lookup
oracle, returning the updated roster and the new-student counter. -/
def update_csv_from_raps (existing extracted : List (String × Student))
    (resolve : String → Option String) : List (String × Student) × Nat :=
  mergeLoop resolve extracted existing 0

/-- One entry posted to Canvas (`{'user_id': ..., 'extra_time_mins': ...}`,
lines 1043-1046). -/
structure Adjustment where
  user_id : String
  extra_time_mins : Int
deriving DecidableEq, Repr

/-- The extra-minutes expression
`int((student.extra_time_per_hour * time_limit) / 60 + 0.5)` (line 1042).
CPython float arithmetic is embedded as exact rational arithmetic; `int`
truncation on a non-negative value is `Int.floor`. -/
def extraMins (extra_time_per_hour time_limit : Nat) : Int :=
  Int.floor ((extra_time_per_hour * time_limit : ℚ) / 60 + 1 / 2)

/-- The per-assignment adjustment loop of `apply_extra_time`
(lines 1038-1046): one adjustment per student whose `canvas_id` is in the
list of active (still-enrolled) Canvas ids. -/
def computeAdjustments (students : List Student) (active_ids : List String)
    (time_limit : Nat) : List Adjustment :=
  students.filterMap (fun s =>
    match s.canvas_id with
    | some cid =>
      if active_ids.contains cid then
        some { user_id := cid,
               extra_time_mins := extraMins s.extra_time_per_hour time_limit }
      else none
    | none => none)

/-- Per-assignment outcome of the batch loop in `apply_extra_time`
(lines 1028-1065). -/
inductive Outcome where
  | applied : Nat → Outcome
  | failedSubmit : Outcome
  | skippedNoTimeLimit : Outcome
  | skippedNoStudents : Outcome
deriving DecidableEq, Repr

/-- One iteration of the assignment loop in `apply_extra_time`
(lines 1028-1065): fetch the time limit, skip when it is `none`
(line 1033 checks `is None` explicitly, since 0 is a valid limit),
otherwise compute adjustments and, when non-empty, post them.  The
returned list records the `post_extra_time` calls made. -/
def processAssignment (getTimeLimit : String → Option Nat)
    (submit : String → List Adjustment → Bool) (students : List Student)
    (active_ids : List String) (aid : String) :
    Outcome × List (String × List Adjustment) :=
  match getTimeLimit aid with
  | none => (Outcome.skippedNoTimeLimit, [])
  | some time_limit =>
    let adjustments := computeAdjustments students active_ids time_limit
    if adjustments.isEmpty then
      (Outcome.skippedNoStudents, [])
    else if submit aid adjustments then
      (Outcome.applied adjustments.length, [(aid, adjustments)])
    else
      (Outcome.failedSubmit, [(aid, adjustments)])

/-- The full assignment loop of `apply_extra_time` (lines 1028-1065):
outcomes in order, plus every submission call made. -/
def applyExtraTime (getTimeLimit : String → Option Nat)
    (submit : String → List Adjustment → Bool) (students : List Student)
    (active_ids : List String) :
    List String → List (String × Outcome) × List (String × List Adjustment)
  | [] => ([], [])
  | aid :: rest =>
    let r := processAssignment getTimeLimit submit students active_ids aid
    let rs := applyExtraTime getTimeLimit submit students active_ids rest
    ((aid, r.1) :: rs.1, r.2 ++ rs.2)

/-- Result of one `requests.get` (plus `.json()`): either a raised
exception, or a status code, a decoded body and an optional `next` link. -/
inductive FetchResult where
  | err : FetchResult
  | ok : Nat → List Nat → Option String → FetchResult

/-- The `while 'next' in r.links` loop of `get_paginated_results`
(lines 555-558), with the surrounding `try`: a raised exception is caught
and the results accumulated so far are returned.  Follow-up responses are
extended into `results` without a status check, as in the source.  `fuel`
bounds the walk (the Python loop may not terminate on cyclic links). -/
def paginateLoop (fetch : String → FetchResult) :
    Nat → Option String → List Nat → List Nat
  | _, none, results => results
  | 0, some _, results => results
  | fuel + 1, some url, results =>
    match fetch url with
    | FetchResult.err => results
    | FetchResult.ok _ body next => paginateLoop fetch fuel next (results ++ body)

/-- `CanvasAPI.get_paginated_results` (lines 547-562): `results` starts
empty; the first response is used only when its status is 200; any raised
exception is caught and whatever accumulated is returned. -/
def get_paginated_results (fetch : String → FetchResult) (fuel : Nat)
    (url : String) : List Nat :=
  match fetch url with
  | FetchResult.err => []
  | FetchResult.ok status body next =>
    if status = 200 then paginateLoop fetch fuel next body
    else []

/-- An assignment as far as `list_assignments` inspects it. -/
structure Assignment where
  id : String
  published : Bool
deriving DecidableEq, Repr

/-- `CanvasAPI.list_assignments` (lines 587-600) after the paginated
fetch: the `published` list is computed when `published_only` is set, but
the function returns `assignments` on every path. -/
def list_assignments (fetched : List Assignment) (published_only : Bool) :
    List Assignment :=
  if published_only then
    let published := fetched.filter (fun a => a.published)
    fetched
  else
    fetched

/-- `\w` (ASCII): letters, digits, underscore. -/
def wChar (c : Char) : Bool := c.isAlphanum || c == '_'

/-- `[A-Z]`. -/
def uChar (c : Char) : Bool := c.isUpper

/-- `[-A-Z]`. -/
def uhChar (c : Char) : Bool := c.isUpper || c == '-'

/-- Backtracking matcher for `(\w+)\s*([A-Z][-A-Z]{1,}?)\s*(\d{7})`
(line 253) anchored at the head of `cs`, exploring alternatives in
CPython `re` order: `\w+` greedy (longest first), `\s*` greedy,
`[-A-Z]{1,}?` lazy (shortest first), `\s*` greedy, then seven digits.
Returns the three groups of the first alternative that matches. -/
def matchNameAt (cs : List Char) : Option (String × String × String) :=
  let maxW := (cs.takeWhile wChar).length
  (List.range' 1 maxW).reverse.findSome? (fun a =>
    let g1 := cs.take a
    let rest1 := cs.drop a
    let maxS1 := (rest1.takeWhile Char.isWhitespace).length
    (List.range (maxS1 + 1)).reverse.findSome? (fun s1 =>
      match rest1.drop s1 with
      | [] => none
      | u :: tail2 =>
        if uChar u then
          let maxK := (tail2.takeWhile uhChar).length
          (List.range' 1 maxK).findSome? (fun k =>
            let g2 := u :: tail2.take k
            let rest3 := tail2.drop k
            let maxS2 := (rest3.takeWhile Char.isWhitespace).length
            (List.range (maxS2 + 1)).reverse.findSome? (fun s2 =>
              let rest4 := rest3.drop s2
              let ds := rest4.take 7
              if ds.length = 7 && ds.all Char.isDigit then
                some (String.mk g1, String.mk g2, String.mk ds)
              else none))
        else none))

/-- `re.finditer(r'(\w+)\s*([A-Z][-A-Z]{1,}?)\s*(\d{7})', text)` taken at
its first element (lines 253-254): scan start positions left to right. -/
def findNameMatch (text : String) : Option (String × String × String) :=
  let cs := text.data
  (List.range (cs.length + 1)).findSome? (fun i => matchNameAt (cs.drop i))

/-- Matcher for `Extra time (\d+) mins? per hour` (line 257) anchored at
the head of `cs`.  `\d+` takes the maximal digit run (the following
literal starts with a space, so no shorter split can match); `s?` is
greedy: the branch consuming `'s'` is tried first. -/
def matchExtraAt (cs : List Char) : Option Nat :=
  if ("Extra time ".data).isPrefixOf cs then
    let rest1 := cs.drop "Extra time ".data.length
    let ds := rest1.takeWhile Char.isDigit
    if ds.isEmpty then none
    else
      let rest2 := rest1.drop ds.length
      if (" min".data).isPrefixOf rest2 then
        let rest3 := rest2.drop " min".data.length
        match rest3 with
        | 's' :: rest4 =>
          if (" per hour".data).isPrefixOf rest4 then some (digitsToNat ds)
          else if (" per hour".data).isPrefixOf rest3 then some (digitsToNat ds)
          else none
        | _ =>
          if (" per hour".data).isPrefixOf rest3 then some (digitsToNat ds)
          else none
      else none
  else none

/-- `re.search(r'Extra time (\d+) mins? per hour', text)` (line 257):
first start position at which the pattern matches. -/
def findExtraTime (text : String) : Option Nat :=
  let cs := text.data
  (List.range (cs.length + 1)).findSome? (fun i => matchExtraAt (cs.drop i))

/-- `RAPReader.extract_student_info_from_pdf` (lines 252-286) on the
whitespace-normalized text of the PDF: a `Student` exactly when both the
name/number pattern and the extra-time pattern are found. -/
def extract_student_info_from_pdf (text : String) : Option Student :=
  match findNameMatch text, findExtraTime text with
  | some (n, sn, num), some extra =>
    some { name := n, surname := sn, student_number := num,
           extra_time_per_hour := extra, canvas_id := none }
  | _, _ => none

/-- Claim C10: `list_assignments` returns the full fetched assignment
list for both values of `published_only`; the published-only filter is
computed (and only logged) but never applied to the return value. -/
theorem list_assignments_ignores_published_only :
    ∀ (fetched : List Assignment) (published_only : Bool),
      list_assignments fetched published_only = fetched := by
  intro fetched b
  cases b <;> rfl

/-- Claim C3: contrary to the claim (and to the docstring "only students
with extra time"), a tabular row whose accommodation text has first
integer literal 0 does produce a record, with `extra_time_per_hour = 0`:
the code filters only the textual sentinels, never a parsed zero. -/
theorem extract_rap_csv_zero_time_record :
    extract_students_from_rap_csv [⟨"C1234567", "0 minutes", "Jane Doe"⟩] =
      [("1234567", ⟨"Jane", "Doe", "1234567", 0, none⟩)] := by decide

/-- Claim C6: a tabular row whose accommodation-text cell is empty or a
case-insensitive variant of the "no additional time required" sentinel
produces no record. -/
theorem rap_csv_no_time_sentinel_skipped :
    ∀ row : RapRow,
      pyLower (pyStrip row.u_exam_time) = "" ∨
        pyLower (pyStrip row.u_exam_time) = "no additional time required" →
      processRapRow row = none := by
  intro row h
  simp only [processRapRow]
  split
  · rfl
  · have hc : noTimePhrases.contains (pyLower (pyStrip row.u_exam_time)) = true := by
      rcases h with h | h <;> rw [h] <;> decide
    rw [if_pos hc]

/-- Witness for C6 at a concrete sentinel row. -/
theorem rap_csv_no_time_sentinel_skipped_witness :
    processRapRow ⟨"C7654321", "No Additional Time Required", "Jane Doe"⟩ = none :=
  rap_csv_no_time_sentinel_skipped _ (Or.inr (by decide))

/-- Claim C4 counterexample: this row's id column reduces — stripping a
single leading letter, and equally under the code's `lstrip('Cc')` — to
the non-empty all-digit string "1234567", yet the row is skipped, because
its empty accommodation-text cell matches the no-time sentinel: being
skipped is not equivalent to failing the id test. -/
theorem rap_row_skipped_despite_valid_id :
    stripOneLeadingLetter "C1234567" = "1234567" ∧
      lstripCc "C1234567" = "1234567" ∧
      ("1234567".data.all Char.isDigit = true ∧ "1234567" ≠ "") ∧
      processRapRow ⟨"C1234567", "", "Jane Doe"⟩ = none := by decide

/-- Claim C4 (amended): the id test is necessary, not equivalent, to
producing a record, and the code strips every leading 'C'/'c' (not one
letter): when a record is produced the reduced id is a non-empty
all-digit string and is the record's `student_number`; a row whose id
does not so reduce is always skipped; the scenario row
{id "C1234567", text "45 minutes", name "Jane Doe"} yields the record
(Jane, Doe, 1234567, 45). -/
theorem rap_row_id_guard :
    (∀ (row : RapRow) (s : Student), processRapRow row = some s →
      (lstripCc (pyStrip row.u_student_id)).data.isEmpty = false ∧
        (lstripCc (pyStrip row.u_student_id)).data.all Char.isDigit = true ∧
        s.student_number = lstripCc (pyStrip row.u_student_id)) ∧
    (∀ row : RapRow,
      (lstripCc (pyStrip row.u_student_id)).data.isEmpty = true ∨
        (lstripCc (pyStrip row.u_student_id)).data.all Char.isDigit = false →
      processRapRow row = none) ∧
    processRapRow ⟨"C1234567", "45 minutes", "Jane Doe"⟩ =
      some ⟨"Jane", "Doe", "1234567", 45, none⟩ := by
  refine ⟨?_, ?_, by decide⟩
  · intro row s h
    simp only [processRapRow] at h
    split at h
    · exact absurd h (by simp)
    · next hguard =>
      have hne : (lstripCc (pyStrip row.u_student_id)).data.isEmpty = false ∧
          (lstripCc (pyStrip row.u_student_id)).data.all Char.isDigit = true := by
        constructor
        · by_contra hx
          apply hguard
          simp [Bool.not_eq_false] at hx
          simp [hx]
        · by_contra hx
          apply hguard
          simp [Bool.not_eq_true] at hx
          simp [hx]
      refine ⟨hne.1, hne.2, ?_⟩
      split at h
      · exact absurd h (by simp)
      · split at h
        · exact absurd h (by simp)
        · next extra heq =>
          simp only [Option.some.injEq] at h
          rw [← h]
  · intro row h
    simp only [processRapRow]
    have : ((lstripCc (pyStrip row.u_student_id)).data.isEmpty ||
        !(lstripCc (pyStrip row.u_student_id)).data.all Char.isDigit) = true := by
      rcases h with h | h <;> simp [h]
    rw [if_pos this]

/-- Witness for C4 (amended) at a concrete produced row and a concrete
invalid-id row. -/
theorem rap_row_id_guard_witness :
    ((lstripCc (pyStrip "C1234567")).data.isEmpty = false ∧
      (lstripCc (pyStrip "C1234567")).data.all Char.isDigit = true ∧
      "1234567" = lstripCc (pyStrip "C1234567")) ∧
    processRapRow ⟨"X1234567", "30 minutes", "A B"⟩ = none :=
  ⟨rap_row_id_guard.1 ⟨"C1234567", "45 minutes", "Jane Doe"⟩
      ⟨"Jane", "Doe", "1234567", 45, none⟩ (by decide),
    rap_row_id_guard.2.1 ⟨"X1234567", "30 minutes", "A B"⟩ (Or.inr (by decide))⟩

/-- Claim C9 counterexample: a transport failure on the second page is
caught, but the first page's results are returned: the failure is not
converted to an empty result list. -/
theorem get_paginated_results_partial_cex :
    get_paginated_results
        (fun u => if u = "p1" then FetchResult.ok 200 [1] (some "p2")
                  else FetchResult.err)
        1 "p1" = [1] ∧
      ([1] : List Nat) ≠ [] := by
  constructor
  · rfl
  · decide

/-- Claim C9 (amended): no exception escapes `get_paginated_results` (it
always returns a list); a transport failure or a non-success status on
the initial request yields the empty list; a transport failure while
following a `next` link yields exactly the results accumulated before it
— a possibly non-empty partial list, not always an empty one. -/
theorem get_paginated_results_degrades :
    (∀ (fetch : String → FetchResult) (fuel : Nat) (url : String),
       fetch url = FetchResult.err → get_paginated_results fetch fuel url = []) ∧
    (∀ (fetch : String → FetchResult) (fuel : Nat) (url : String)
       (status : Nat) (body : List Nat) (next : Option String),
       fetch url = FetchResult.ok status body next → status ≠ 200 →
       get_paginated_results fetch fuel url = []) ∧
    (∀ (fetch : String → FetchResult) (fuel : Nat) (url : String)
       (acc : List Nat), fetch url = FetchResult.err →
       paginateLoop fetch (fuel + 1) (some url) acc = acc) := by
  refine ⟨?_, ?_, ?_⟩
  · intro fetch fuel url h
    simp [get_paginated_results, h]
  · intro fetch fuel url status body next h hs
    simp [get_paginated_results, h, hs]
  · intro fetch fuel url acc h
    simp [paginateLoop, h]

/-- Witness for C9 (amended) at concrete fetch oracles. -/
theorem get_paginated_results_degrades_witness :
    get_paginated_results (fun _ => FetchResult.err) 5 "u" = [] ∧
      get_paginated_results (fun _ => FetchResult.ok 404 [7] none) 5 "u" = [] ∧
      paginateLoop (fun _ => FetchResult.err) 3 (some "u") [4] = [4] :=
  ⟨get_paginated_results_degrades.1 _ 5 "u" rfl,
    get_paginated_results_degrades.2.1 _ 5 "u" 404 [7] none rfl (by decide),
    get_paginated_results_degrades.2.2 _ 2 "u" [4] rfl⟩

/-- Claim C7: a roster record whose `canvas_id` is absent or not in the
active set contributes nothing to `computeAdjustments` — removing it
leaves the output unchanged — and every output entry carries an active
Canvas id backed by some roster record; in particular no zero-value entry
is emitted for an excluded record. -/
theorem computeAdjustments_excludes_inactive :
    (∀ (pre post : List Student) (s : Student) (active : List String) (t : Nat),
       (s.canvas_id = none ∨
         ∀ cid, s.canvas_id = some cid → active.contains cid = false) →
       computeAdjustments (pre ++ s :: post) active t =
         computeAdjustments (pre ++ post) active t) ∧
    (∀ (students : List Student) (active : List String) (t : Nat)
       (adj : Adjustment), adj ∈ computeAdjustments students active t →
       active.contains adj.user_id = true ∧
         ∃ s, s ∈ students ∧ s.canvas_id = some adj.user_id) := by
  constructor
  · intro pre post s active t h
    cases hc : s.canvas_id with
    | none => simp [computeAdjustments, List.filterMap_append, hc]
    | some cid =>
      have hf : active.contains cid = false := by
        rcases h with h | h
        · rw [h] at hc; cases hc
        · exact h cid hc
      have hf' : cid ∉ active := by simpa using hf
      simp [computeAdjustments, List.filterMap_append, hc, hf']
  · intro students active t adj h
    simp only [computeAdjustments, List.mem_filterMap] at h
    obtain ⟨s, hs, hf⟩ := h
    split at hf
    · next cid hc =>
      split at hf
      · next hm =>
        obtain rfl : Adjustment.mk cid (extraMins s.extra_time_per_hour t) = adj :=
          Option.some.inj hf
        exact ⟨hm, s, hs, hc⟩
      · cases hf
    · cases hf

/-- Witness for C7: dropping a record with no Canvas id leaves the
adjustment list unchanged. -/
theorem computeAdjustments_excludes_inactive_witness :
    computeAdjustments ([⟨"A", "B", "1", 30, some "9"⟩] ++
        ⟨"C", "D", "2", 15, none⟩ :: []) ["9"] 60 =
      computeAdjustments ([⟨"A", "B", "1", 30, some "9"⟩] ++ []) ["9"] 60 :=
  computeAdjustments_excludes_inactive.1 [⟨"A", "B", "1", 30, some "9"⟩] []
    ⟨"C", "D", "2", 15, none⟩ ["9"] 60 (Or.inl rfl)

/-- `int((e*t)/60 + 0.5)` on non-negative inputs is the integer
`(e*t + 30) / 60`. -/
theorem extraMins_eq_div (e t : Nat) :
    extraMins e t = ((e * t : Int) + 30) / 60 := by
  unfold extraMins
  have h : ((e : ℚ) * (t : ℚ)) / 60 + 1 / 2 =
      (((e * t : Int) + 30 : Int) : ℚ) / ((60 : Nat) : ℚ) := by
    push_cast
    ring
  rw [h, Rat.floor_intCast_div_natCast]
  norm_num

/-- Claim C2: for every roster record whose Canvas id is in the active
set, the posted adjustment value is exactly
floor(extra_time_per_hour * time_limit / 60 + 1/2), i.e. the integer
(e*t + 30) / 60 — round-half-up, never negative; 30 per hour on a
60-minute budget gives 30, 10 per hour on 45 minutes gives 8, and a zero
budget gives the defined value 0 (the student is still included). -/
theorem computeAdjustments_rounding :
    (∀ (students : List Student) (active : List String) (t : Nat)
       (s : Student) (cid : String), s ∈ students → s.canvas_id = some cid →
       active.contains cid = true →
       Adjustment.mk cid (extraMins s.extra_time_per_hour t) ∈
         computeAdjustments students active t) ∧
    (∀ e t : Nat, extraMins e t = ((e * t : Int) + 30) / 60 ∧
       0 ≤ extraMins e t) ∧
    (∀ e : Nat, extraMins e 0 = 0) ∧
    extraMins 30 60 = 30 ∧ extraMins 10 45 = 8 := by
  refine ⟨?_, ?_, ?_, ?_, ?_⟩
  · intro students active t s cid hs hc ha
    have ha' : cid ∈ active := by simpa using ha
    simp only [computeAdjustments, List.mem_filterMap]
    exact ⟨s, hs, by simp [hc, ha']⟩
  · intro e t
    refine ⟨extraMins_eq_div e t, ?_⟩
    rw [extraMins_eq_div]
    have : (0 : Int) ≤ (e * t : Int) + 30 := by positivity
    exact Int.ediv_nonneg this (by norm_num)
  · intro e
    rw [extraMins_eq_div]
    simp
  · rw [extraMins_eq_div]; decide
  · rw [extraMins_eq_div]; decide

/-- Witness for C2 at a concrete eligible student. -/
theorem computeAdjustments_rounding_witness :
    Adjustment.mk "9" (extraMins 30 60) ∈
      computeAdjustments [⟨"A", "B", "1", 30, some "9"⟩] ["9"] 60 :=
  computeAdjustments_rounding.1 [⟨"A", "B", "1", 30, some "9"⟩] ["9"] 60
    ⟨"A", "B", "1", 30, some "9"⟩ "9" (by simp) rfl (by decide)

/-- The assignment loop distributes over list append. -/
theorem applyExtraTime_append (gtl : String → Option Nat)
    (submit : String → List Adjustment → Bool) (students : List Student)
    (active : List String) (l1 l2 : List String) :
    applyExtraTime gtl submit students active (l1 ++ l2) =
      ((applyExtraTime gtl submit students active l1).1 ++
         (applyExtraTime gtl submit students active l2).1,
       (applyExtraTime gtl submit students active l1).2 ++
         (applyExtraTime gtl submit students active l2).2) := by
  induction l1 with
  | nil => simp [applyExtraTime]
  | cons a rest ih => simp [applyExtraTime, ih]

/-- Claim C8: an assessment whose fetched time budget is `none` is
skipped — outcome `skippedNoTimeLimit` and no submission call — while the
remaining assessments are processed exactly as before; a fetched budget
of `some t`, including `t = 0`, is never given that outcome. -/
theorem applyExtraTime_skips_absent_budget :
    ∀ (gtl : String → Option Nat) (submit : String → List Adjustment → Bool)
      (students : List Student) (active : List String)
      (pre post : List String) (a : String),
      (gtl a = none →
        applyExtraTime gtl submit students active (pre ++ a :: post) =
          ((applyExtraTime gtl submit students active pre).1 ++
             (a, Outcome.skippedNoTimeLimit) ::
               (applyExtraTime gtl submit students active post).1,
           (applyExtraTime gtl submit students active pre).2 ++
             (applyExtraTime gtl submit students active post).2)) ∧
      (∀ t : Nat, gtl a = some t →
        (processAssignment gtl submit students active a).1 ≠
          Outcome.skippedNoTimeLimit) := by
  intro gtl submit students active pre post a
  constructor
  · intro h
    rw [applyExtraTime_append]
    simp [applyExtraTime, processAssignment, h]
  · intro t h
    simp only [processAssignment, h]
    split
    · simp
    · split <;> simp

/-- Witness for C8: assignment "q1" has no time limit and is skipped with
no submission call, while "q2" (budget 0) is processed; a zero budget is
not given the skip outcome. -/
theorem applyExtraTime_skips_absent_budget_witness :
    (applyExtraTime (fun u => if u = "q1" then none else some 0)
        (fun _ _ => true) [⟨"A", "B", "1", 30, some "9"⟩] ["9"]
        ([] ++ "q1" :: ["q2"]) =
      ((applyExtraTime (fun u => if u = "q1" then none else some 0)
          (fun _ _ => true) [⟨"A", "B", "1", 30, some "9"⟩] ["9"] []).1 ++
         ("q1", Outcome.skippedNoTimeLimit) ::
           (applyExtraTime (fun u => if u = "q1" then none else some 0)
             (fun _ _ => true) [⟨"A", "B", "1", 30, some "9"⟩] ["9"] ["q2"]).1,
       (applyExtraTime (fun u => if u = "q1" then none else some 0)
          (fun _ _ => true) [⟨"A", "B", "1", 30, some "9"⟩] ["9"] []).2 ++
         (applyExtraTime (fun u => if u = "q1" then none else some 0)
           (fun _ _ => true) [⟨"A", "B", "1", 30, some "9"⟩] ["9"] ["q2"]).2)) ∧
    (processAssignment (fun u => if u = "q1" then none else some 0)
        (fun _ _ => true) [⟨"A", "B", "1", 30, some "9"⟩] ["9"] "q2").1 ≠
      Outcome.skippedNoTimeLimit :=
  ⟨(applyExtraTime_skips_absent_budget (fun u => if u = "q1" then none else some 0)
      (fun _ _ => true) [⟨"A", "B", "1", 30, some "9"⟩] ["9"] [] ["q2"] "q1").1
      (by decide),
    (applyExtraTime_skips_absent_budget (fun u => if u = "q1" then none else some 0)
      (fun _ _ => true) [⟨"A", "B", "1", 30, some "9"⟩] ["9"] [] [] "q2").2 0
      (by decide)⟩

/-- The merge never removes or reorders what is already in the roster:
its result extends the accumulator on the right. -/
theorem mergeLoop_extends (f : String → Option String) :
    ∀ (X acc : List (String × Student)) (n : Nat),
      ∃ t, (mergeLoop f X acc n).1 = acc ++ t := by
  intro X
  induction X with
  | nil => intro acc n; exact ⟨[], by simp [mergeLoop]⟩
  | cons p rest ih =>
    intro acc n
    obtain ⟨sn, st⟩ := p
    cases hc : containsKey acc sn with
    | true => simpa [mergeLoop, hc] using ih acc n
    | false =>
      cases hr : f sn with
      | none => simpa [mergeLoop, hc, hr] using ih acc n
      | some cid =>
        obtain ⟨t, ht⟩ :=
          ih (acc ++ [(sn, { st with canvas_id := some cid })]) (n + 1)
        exact ⟨(sn, { st with canvas_id := some cid }) :: t,
          by simp [mergeLoop, hc, hr, ht]⟩

/-- Key membership survives extending the roster on the right. -/
theorem containsKey_append_left (d t : List (String × Student)) (k : String)
    (h : containsKey d k = true) : containsKey (d ++ t) k = true := by
  simp only [containsKey, List.any_append, Bool.or_eq_true]
  exact Or.inl h

/-- After a merge pass, every extracted student number is either a roster
key or unresolvable by the Canvas oracle. -/
theorem mergeLoop_resolves (f : String → Option String) :
    ∀ (X acc : List (String × Student)) (n : Nat) (p : String × Student),
      p ∈ X →
      containsKey (mergeLoop f X acc n).1 p.1 = true ∨ f p.1 = none := by
  intro X
  induction X with
  | nil => intro acc n p hp; cases hp
  | cons q rest ih =>
    intro acc n p hp
    obtain ⟨sn, st⟩ := q
    rcases List.mem_cons.mp hp with heq | hmem
    · subst heq
      cases hc : containsKey acc sn with
      | true =>
        left
        obtain ⟨t, ht⟩ := mergeLoop_extends f rest acc n
        simp only [mergeLoop, hc, if_true]
        rw [ht]
        exact containsKey_append_left acc t sn hc
      | false =>
        cases hr : f sn with
        | none => right; simp [hr]
        | some cid =>
          left
          obtain ⟨t, ht⟩ :=
            mergeLoop_extends f rest
              (acc ++ [(sn, { st with canvas_id := some cid })]) (n + 1)
          have hstep : (mergeLoop f ((sn, st) :: rest) acc n).1 =
              acc ++ [(sn, { st with canvas_id := some cid })] ++ t := by
            simp [mergeLoop, hc, hr, ht]
          rw [hstep]
          exact containsKey_append_left _ t sn
            (by simp [containsKey, List.any_append])
    · cases hc : containsKey acc sn with
      | true => simpa [mergeLoop, hc] using ih acc n p hmem
      | false =>
        cases hr : f sn with
        | none => simpa [mergeLoop, hc, hr] using ih acc n p hmem
        | some cid =>
          simpa [mergeLoop, hc, hr] using
            ih (acc ++ [(sn, { st with canvas_id := some cid })]) (n + 1) p hmem

/-- A merge pass in which every extracted record is already keyed or
unresolvable changes nothing: roster and counter come back unchanged. -/
theorem mergeLoop_fixed (f : String → Option String) :
    ∀ (X acc : List (String × Student)) (n : Nat),
      (∀ p ∈ X, containsKey acc p.1 = true ∨ f p.1 = none) →
      mergeLoop f X acc n = (acc, n) := by
  intro X
  induction X with
  | nil => intro acc n _; rfl
  | cons q rest ih =>
    intro acc n h
    obtain ⟨sn, st⟩ := q
    have hq := h (sn, st) (List.mem_cons_self _ _)
    cases hc : containsKey acc sn with
    | true =>
      simp only [mergeLoop, hc, if_true]
      exact ih acc n (fun p hp => h p (List.mem_cons_of_mem _ hp))
    | false =>
      have hr : f sn = none := by
        rcases hq with hq | hq
        · rw [hc] at hq; cases hq
        · exact hq
      simp only [mergeLoop, hc, hr]
      exact ih acc n (fun p hp => h p (List.mem_cons_of_mem _ hp))

/-- Looking up a key already present on the left is unaffected by a
right extension. -/
theorem lookupKey_append_left (d t : List (String × Student)) (k : String)
    (h : containsKey d k = true) : lookupKey (d ++ t) k = lookupKey d k := by
  simp only [lookupKey, List.find?_append]
  cases hf : List.find? (fun p => p.1 == k) d with
  | some v => rfl
  | none =>
    exfalso
    simp only [containsKey, List.any_eq_true] at h
    obtain ⟨p, hp, hpk⟩ := h
    have := List.find?_eq_none.mp hf p hp
    exact this hpk

/-- Claim C1: merging the same extracted records a second time, on top of
the roster a first merge produced, returns that roster unchanged with a
new-record counter of 0; and a record whose student number is already a
key of the existing roster is never overwritten by a merge (its looked-up
value — name, extra time and Canvas id — is exactly the pre-merge one). -/
theorem update_csv_from_raps_idempotent :
    ∀ (existing extracted : List (String × Student))
      (resolve : String → Option String),
      update_csv_from_raps (update_csv_from_raps existing extracted resolve).1
          extracted resolve =
        ((update_csv_from_raps existing extracted resolve).1, 0) ∧
      ∀ k, containsKey existing k = true →
        lookupKey (update_csv_from_raps existing extracted resolve).1 k =
          lookupKey existing k := by
  intro existing extracted resolve
  constructor
  · apply mergeLoop_fixed
    intro p hp
    have := mergeLoop_resolves resolve extracted existing 0 p hp
    simpa [update_csv_from_raps] using this
  · intro k hk
    obtain ⟨t, ht⟩ := mergeLoop_extends resolve extracted existing 0
    simp only [update_csv_from_raps]
    rw [ht]
    exact lookupKey_append_left existing t k hk

/-- Witness for C1 at a concrete roster, extraction and oracle. -/
theorem update_csv_from_raps_idempotent_witness :
    update_csv_from_raps
        (update_csv_from_raps [("7", ⟨"A", "B", "7", 30, none⟩)]
          [("8", ⟨"C", "D", "8", 15, none⟩)] (fun _ => some "c8")).1
        [("8", ⟨"C", "D", "8", 15, none⟩)] (fun _ => some "c8") =
      ((update_csv_from_raps [("7", ⟨"A", "B", "7", 30, none⟩)]
          [("8", ⟨"C", "D", "8", 15, none⟩)] (fun _ => some "c8")).1, 0) ∧
    lookupKey
        (update_csv_from_raps [("7", ⟨"A", "B", "7", 30, none⟩)]
          [("8", ⟨"C", "D", "8", 15, none⟩)] (fun _ => some "c8")).1 "7" =
      lookupKey [("7", ⟨"A", "B", "7", 30, none⟩)] "7" :=
  ⟨(update_csv_from_raps_idempotent [("7", ⟨"A", "B", "7", 30, none⟩)]
      [("8", ⟨"C", "D", "8", 15, none⟩)] (fun _ => some "c8")).1,
    (update_csv_from_raps_idempotent [("7", ⟨"A", "B", "7", 30, none⟩)]
      [("8", ⟨"C", "D", "8", 15, none⟩)] (fun _ => some "c8")).2 "7" (by decide)⟩

/-- Claim C5: free-text extraction produces a record exactly when both
the name/number pattern `(\w+)\s*([A-Z][-A-Z]{1,}?)\s*(\d{7})` and the
extra-time pattern `Extra time (\d+) mins? per hour` are found; the first
name/number match supplies name, surname and student number, the
extra-time match supplies the minutes; when either is missing the result
is `none`, not an error; the scenario text yields
(John, DOE-SMITH, 3456789, 20). -/
theorem extract_pdf_requires_both_patterns :
    (∀ text : String, (extract_student_info_from_pdf text).isSome =
        ((findNameMatch text).isSome && (findExtraTime text).isSome)) ∧
    (∀ (text n sn num : String) (extra : Nat),
       findNameMatch text = some (n, sn, num) → findExtraTime text = some extra →
       extract_student_info_from_pdf text = some ⟨n, sn, num, extra, none⟩) ∧
    extract_student_info_from_pdf
        "Student John DOE-SMITH 3456789 has Extra time 20 mins per hour" =
      some ⟨"John", "DOE-SMITH", "3456789", 20, none⟩ := by
  refine ⟨?_, ?_, by decide⟩
  · intro text
    unfold extract_student_info_from_pdf
    rcases findNameMatch text with _ | ⟨n, sn, num⟩ <;>
      rcases findExtraTime text with _ | extra <;> rfl
  · intro text n sn num extra h1 h2
    unfold extract_student_info_from_pdf
    rw [h1, h2]

/-- Witness for C5 at a concrete free text containing both patterns. -/
theorem extract_pdf_requires_both_patterns_witness :
    extract_student_info_from_pdf
        "Ref RAP for Mary WONG 7654321 grants Extra time 45 min per hour today" =
      some ⟨"Mary", "WONG", "7654321", 45, none⟩ :=
  extract_pdf_requires_both_patterns.2.1 _ "Mary" "WONG" "7654321" 45
    (by decide) (by decide)

end RAPydity
